import Mathlib

/-
Verification of the storage façade, date utilities, feature-view logic and
Insights metrics of the AJ-OS personal productivity application.

The embedding models:
  * `src/lib/date.ts`        — local-timezone date formatting/parsing;
  * `src/lib/store.ts`       — the `Storage` CRUD façade (cache + remote writes);
  * the Idea-inbox sort comparator and the TodoList state transitions
    (`src/unnamed/part_000`, `src/unnamed/part_001`);
  * the Insights streak loop (`src/components/ContactManager.tsx`).

JavaScript strings are modelled as Lean `String`/`List Char`; the ambient
clock is modelled as an explicit instant `t : Int` (minutes since the Unix
epoch, UTC) together with a timezone offset `off : Int` (minutes to add to
UTC to obtain local wall-clock time; `off = -300` models UTC−5).
`localStorage` is modelled as the per-entity cached collection (`List α`);
the JSON stringify/parse round-trip through the browser store is not
modelled.  Remote (Supabase) calls are modelled by their issued payload rows
plus an explicit failure flag per attempt; the rows issued by an operation
are collected in order in a `requests` list.
-/

namespace AJOS

/-- Model of the JavaScript expression `s || d` for strings: the empty string
is falsy, any other string is truthy.  A TypeScript optional string field
that is absent (`undefined`) is modelled as `""`. -/
def strOr (s d : String) : String := if s = "" then d else s

/-- Decimal digit as a character, for digits `0..9` (model of the characters
produced by JavaScript number-to-string conversion). -/
def digitChar (d : Nat) : Char :=
  match d with
  | 0 => '0' | 1 => '1' | 2 => '2' | 3 => '3' | 4 => '4'
  | 5 => '5' | 6 => '6' | 7 => '7' | 8 => '8' | _ => '9'

/-- Numeric value of a decimal digit character (model of the per-character
step of JavaScript `parseInt`). -/
def digitVal (c : Char) : Nat := c.toNat - 48

/-- Fuel-driven digit renderer; the fuel is structural so that the kernel can
evaluate it.  `natDigits` below always supplies enough fuel. -/
def natDigitsAux : Nat → Nat → List Char
  | 0, _ => []
  | fuel + 1, n =>
    if n < 10 then [digitChar n]
    else natDigitsAux fuel (n / 10) ++ [digitChar (n % 10)]

/-- Decimal digit list (most significant first) of a natural number: model of
JavaScript `String(n)` for a non-negative integer. -/
def natDigits (n : Nat) : List Char := natDigitsAux (n + 1) n

theorem natDigitsAux_fuel (f₁ f₂ n : Nat) (h₁ : n < f₁) (h₂ : n < f₂) :
    natDigitsAux f₁ n = natDigitsAux f₂ n := by
  induction n using Nat.strong_induction_on generalizing f₁ f₂ with
  | _ n ih =>
    obtain ⟨g₁, rfl⟩ : ∃ g, f₁ = g + 1 := ⟨f₁ - 1, by omega⟩
    obtain ⟨g₂, rfl⟩ : ∃ g, f₂ = g + 1 := ⟨f₂ - 1, by omega⟩
    simp only [natDigitsAux]
    split
    · rfl
    · rename_i hn
      have hlt : n / 10 < n := Nat.div_lt_self (by omega) (by omega)
      rw [ih (n / 10) hlt g₁ g₂ (by omega) (by omega)]

/-- Unfolding equation of `natDigits`. -/
theorem natDigits_eq (n : Nat) :
    natDigits n =
      if n < 10 then [digitChar n]
      else natDigits (n / 10) ++ [digitChar (n % 10)] := by
  show natDigitsAux (n + 1) n = _
  simp only [natDigitsAux]
  split
  · rfl
  · rename_i hn
    have hlt : n / 10 < n := Nat.div_lt_self (by omega) (by omega)
    rw [natDigitsAux_fuel n (n / 10 + 1) (n / 10) (by omega) (by omega)]
    rfl

/-- Model of JavaScript `parseInt(s, 10)` restricted to all-digit strings
(the only inputs the verified code feeds it). -/
def parseNat (cs : List Char) : Nat :=
  cs.foldl (fun a c => a * 10 + digitVal c) 0

/-- Model of `String(n).padStart(2, '0')`. -/
def pad2 (n : Nat) : List Char :=
  if n < 10 then '0' :: natDigits n else natDigits n

/-- Model of JavaScript `String.prototype.split` with a single-character
separator: the list of maximal separator-free groups (always non-empty). -/
def splitOnChar (sep : Char) : List Char → List (List Char)
  | [] => [[]]
  | c :: cs =>
    if c = sep then [] :: splitOnChar sep cs
    else
      match splitOnChar sep cs with
      | [] => [[c]]
      | g :: gs => (c :: g) :: gs

theorem splitOnChar_ne_nil (sep : Char) (cs : List Char) :
    splitOnChar sep cs ≠ [] := by
  induction cs with
  | nil => simp [splitOnChar]
  | cons c cs ih =>
    simp only [splitOnChar]
    split
    · simp
    · split
      · simp
      · simp

theorem splitOnChar_of_not_mem (sep : Char) (cs : List Char)
    (h : sep ∉ cs) : splitOnChar sep cs = [cs] := by
  induction cs with
  | nil => rfl
  | cons c cs ih =>
    simp only [List.mem_cons, not_or] at h
    simp only [splitOnChar]
    rw [if_neg (fun hc => h.1 hc.symm), ih h.2]

theorem splitOnChar_append (sep : Char) (a rest : List Char)
    (h : sep ∉ a) :
    splitOnChar sep (a ++ sep :: rest) = a :: splitOnChar sep rest := by
  induction a with
  | nil => simp [splitOnChar]
  | cons c a ih =>
    simp only [List.mem_cons, not_or] at h
    simp only [List.cons_append, splitOnChar]
    rw [if_neg (fun hc => h.1 hc.symm)]
    simp only [List.append_eq]
    rw [ih h.2]

theorem natDigits_mem (n : Nat) :
    ∀ c ∈ natDigits n, ∃ d, d < 10 ∧ c = digitChar d := by
  induction n using Nat.strong_induction_on with
  | _ n ih =>
    rw [natDigits_eq]
    split
    · rename_i h
      intro c hc
      simp only [List.mem_singleton] at hc
      exact ⟨n, h, hc⟩
    · rename_i h
      intro c hc
      rcases List.mem_append.1 hc with hc | hc
      · exact ih (n / 10) (Nat.div_lt_self (by omega) (by omega)) c hc
      · simp only [List.mem_singleton] at hc
        exact ⟨n % 10, Nat.mod_lt _ (by omega), hc⟩

theorem digitChar_ne_dash {d : Nat} : digitChar d ≠ '-' := by
  unfold digitChar
  split <;> decide

theorem digitChar_ne_T {d : Nat} : digitChar d ≠ 'T' := by
  unfold digitChar
  split <;> decide

theorem dash_not_mem_natDigits (n : Nat) : '-' ∉ natDigits n := by
  intro h
  obtain ⟨d, _, hd⟩ := natDigits_mem n _ h
  exact digitChar_ne_dash hd.symm

theorem T_not_mem_natDigits (n : Nat) : 'T' ∉ natDigits n := by
  intro h
  obtain ⟨d, _, hd⟩ := natDigits_mem n _ h
  exact digitChar_ne_T hd.symm

theorem dash_not_mem_pad2 (n : Nat) : '-' ∉ pad2 n := by
  unfold pad2
  split
  · intro h
    rcases List.mem_cons.1 h with h | h
    · exact absurd h.symm (by decide)
    · exact dash_not_mem_natDigits n h
  · exact dash_not_mem_natDigits n

theorem T_not_mem_pad2 (n : Nat) : 'T' ∉ pad2 n := by
  unfold pad2
  split
  · intro h
    rcases List.mem_cons.1 h with h | h
    · exact absurd h.symm (by decide)
    · exact T_not_mem_natDigits n h
  · exact T_not_mem_natDigits n

theorem digitVal_digitChar {d : Nat} (h : d < 10) :
    digitVal (digitChar d) = d := by
  interval_cases d <;> decide

theorem parseNat_append_digit (cs : List Char) (c : Char) :
    parseNat (cs ++ [c]) = parseNat cs * 10 + digitVal c := by
  simp [parseNat, List.foldl_append]

theorem parseNat_natDigits (n : Nat) : parseNat (natDigits n) = n := by
  induction n using Nat.strong_induction_on with
  | _ n ih =>
    rw [natDigits_eq]
    split
    · rename_i h
      show parseNat [digitChar n] = n
      simp [parseNat, digitVal_digitChar h]
    · rename_i h
      rw [parseNat_append_digit,
        ih (n / 10) (Nat.div_lt_self (by omega) (by omega)),
        digitVal_digitChar (Nat.mod_lt _ (by omega))]
      omega

theorem parseNat_pad2 (n : Nat) : parseNat (pad2 n) = n := by
  unfold pad2
  split
  · show parseNat ('0' :: natDigits n) = n
    have : parseNat ('0' :: natDigits n) = parseNat (natDigits n) := by
      simp [parseNat, digitVal]
    rw [this, parseNat_natDigits]
  · exact parseNat_natDigits n

/-- Model of a JavaScript `Date` as seen through its LOCAL calendar
components `getFullYear()`, `getMonth()` (0-based month index) and
`getDate()`.  A real `Date` always carries in-range components; the
normalization JavaScript applies to out-of-range constructor arguments is
not modelled, so theorems about parsing restrict to `ValidDate`. -/
structure JSDate where
  year : Nat
  monthIndex : Nat
  day : Nat
  deriving DecidableEq, Repr

/-- Gregorian leap-year rule. -/
def isLeap (y : Nat) : Bool :=
  y % 4 = 0 && (y % 100 ≠ 0 || y % 400 = 0)

/-- Number of days of the month with the given 0-based index. -/
def daysInMonth (y : Nat) (mi : Nat) : Nat :=
  match mi with
  | 0 => 31 | 1 => if isLeap y then 29 else 28 | 2 => 31 | 3 => 30
  | 4 => 31 | 5 => 30 | 6 => 31 | 7 => 31 | 8 => 30 | 9 => 31
  | 10 => 30 | _ => 31

/-- Components that an actual JavaScript `Date` can carry. -/
def ValidDate (d : JSDate) : Prop :=
  d.monthIndex ≤ 11 ∧ 1 ≤ d.day ∧ d.day ≤ daysInMonth d.year d.monthIndex

instance (d : JSDate) : Decidable (ValidDate d) := by
  unfold ValidDate; infer_instance

/-- Character rendering of the `YYYY-MM-DD` template used by `getLocalDate`
in `src/lib/date.ts`: year via `String(year)`, month and day via
`String(..).padStart(2, '0')`. -/
def formatYMD (d : JSDate) : List Char :=
  natDigits d.year ++ '-' :: (pad2 (d.monthIndex + 1) ++ '-' :: pad2 d.day)

/-- Model of `getLocalDate` (`src/lib/date.ts`): formats the local calendar
components of a date as `YYYY-MM-DD`. -/
def getLocalDate (d : JSDate) : String := ⟨formatYMD d⟩

/-- Model of `parseLocalDate` (`src/lib/date.ts`): split on `'T'`, take the
first part, split on `'-'`; with exactly three groups build
`new Date(year, month - 1, day)`.  The other two source branches return
`new Date()` (the current instant) and `new Date(dateStr)` respectively;
they are outside the modelled domain and map to `none`. -/
def parseLocalDate (s : String) : Option JSDate :=
  if s.data = [] then none
  else
    match splitOnChar '-' ((splitOnChar 'T' s.data).headD []) with
    | [p0, p1, p2] => some ⟨parseNat p0, parseNat p1 - 1, parseNat p2⟩
    | _ => none

/-- Civil-calendar date of a day number (days since 1970-01-01, UTC): model
of the calendar arithmetic the JavaScript engine performs inside `Date`.
Valid for day numbers at or after year 0. -/
def civilFromDays (z0 : Int) : JSDate :=
  let z := z0 + 719468
  let era : Int := z.fdiv 146097
  let doe : Nat := (z - era * 146097).toNat
  let yoe : Nat := (doe - doe / 1460 + doe / 36524 - doe / 146096) / 365
  let y : Int := (yoe : Int) + era * 400
  let doy : Nat := doe - (365 * yoe + yoe / 4 - yoe / 100)
  let mp : Nat := (5 * doy + 2) / 153
  let d : Nat := doy - (153 * mp + 2) / 5 + 1
  let m : Nat := if mp < 10 then mp + 3 else mp - 9
  { year := (if mp < 10 then y else y + 1).toNat, monthIndex := m - 1, day := d }

/-- Day number (days since the epoch, UTC calendar) of an instant `t` given
in minutes since the epoch; JavaScript `Math.floor` division. -/
def utcDayNum (t : Int) : Int := t.fdiv 1440

/-- Day number of the LOCAL calendar day of instant `t` in a timezone whose
local wall-clock time is `t + off` minutes (`off = -300` is UTC−5). -/
def localDayNum (off t : Int) : Int := (t + off).fdiv 1440

/-- Model of calling `getLocalDate()` with no argument (i.e. on `new Date()`)
at instant `t` in a timezone with offset `off`: the formatter reads the
LOCAL calendar components. -/
def getLocalDateAt (off t : Int) : String :=
  getLocalDate (civilFromDays (localDayNum off t))

/-- Minutes past UTC midnight of instant `t`. -/
def utcMinuteOfDay (t : Int) : Nat := (t - 1440 * utcDayNum t).toNat

/-- Model of `Date.prototype.toISOString()` at instant `t`: UTC calendar
components; the instant model has minute granularity, so seconds and
milliseconds render as `00.000`. -/
def toISOStringAt (t : Int) : String :=
  ⟨formatYMD (civilFromDays (utcDayNum t)) ++
    'T' :: (pad2 (utcMinuteOfDay t / 60) ++
      ':' :: (pad2 (utcMinuteOfDay t % 60) ++ (":00.000Z").data))⟩

/-- Model of `new Date().toISOString().split('T')[0]`, the default trace
date expression used by `Storage.saveExpense` (`src/lib/store.ts`): the UTC
calendar date of the instant. -/
def expenseDefaultTraceDate (t : Int) : String :=
  ⟨(splitOnChar 'T' (toISOStringAt t).data).headD []⟩

theorem T_not_mem_formatYMD (d : JSDate) : 'T' ∉ formatYMD d := by
  intro h
  unfold formatYMD at h
  rcases List.mem_append.1 h with h | h
  · exact T_not_mem_natDigits _ h
  · rcases List.mem_cons.1 h with h | h
    · exact absurd h (by decide)
    · rcases List.mem_append.1 h with h | h
      · exact T_not_mem_pad2 _ h
      · rcases List.mem_cons.1 h with h | h
        · exact absurd h (by decide)
        · exact T_not_mem_pad2 _ h

theorem formatYMD_ne_nil (d : JSDate) : formatYMD d ≠ [] := by
  unfold formatYMD
  intro h
  have := List.append_eq_nil.1 h
  exact absurd this.2 (by simp)

/-- The `expenseDefaultTraceDate` expression evaluates to the formatted UTC
calendar date of the instant. -/
theorem expenseDefaultTraceDate_eq (t : Int) :
    expenseDefaultTraceDate t = ⟨formatYMD (civilFromDays (utcDayNum t))⟩ := by
  unfold expenseDefaultTraceDate toISOStringAt
  rw [show (⟨formatYMD (civilFromDays (utcDayNum t)) ++
    'T' :: (pad2 (utcMinuteOfDay t / 60) ++
      ':' :: (pad2 (utcMinuteOfDay t % 60) ++ (":00.000Z").data))⟩ : String).data
      = formatYMD (civilFromDays (utcDayNum t)) ++
    'T' :: (pad2 (utcMinuteOfDay t / 60) ++
      ':' :: (pad2 (utcMinuteOfDay t % 60) ++ (":00.000Z").data)) from rfl]
  rw [splitOnChar_append _ _ _ (T_not_mem_formatYMD _)]
  rfl

/-- Round trip of the `src/lib/date.ts` pair: parsing the string produced by
`getLocalDate` recovers exactly the original local calendar components. -/
theorem parseLocalDate_getLocalDate (d : JSDate) :
    parseLocalDate (getLocalDate d) = some d := by
  unfold parseLocalDate getLocalDate
  rw [show (⟨formatYMD d⟩ : String).data = formatYMD d from rfl]
  rw [if_neg (formatYMD_ne_nil d)]
  rw [splitOnChar_of_not_mem _ _ (T_not_mem_formatYMD d)]
  rw [show ([formatYMD d].headD [] : List Char) = formatYMD d from rfl]
  unfold formatYMD
  rw [splitOnChar_append _ _ _ (dash_not_mem_natDigits _),
    splitOnChar_append _ _ _ (dash_not_mem_pad2 _),
    splitOnChar_of_not_mem _ _ (dash_not_mem_pad2 _)]
  simp only [parseNat_natDigits, parseNat_pad2, Nat.add_sub_cancel]

/-- Modelled from the spec: `src/lib/security.ts` (imported by the store as
`sanitizeText`) is not included in `src/`; §4.2 of the spec says the
sanitization utilities are pure functions that strip/escape free-text fields.
Modelled as stripping angle brackets. -/
def sanitizeText (s : String) : String :=
  ⟨s.data.filter (fun c => c ≠ '<' && c ≠ '>')⟩

/-- Modelled from the spec: `sanitizeEmail` of the missing
`src/lib/security.ts`; modelled as stripping angle brackets and spaces from
the email field. -/
def sanitizeEmail (s : String) : String :=
  ⟨s.data.filter (fun c => c ≠ '<' && c ≠ '>' && c ≠ ' ')⟩

/-- Modelled from the spec: `sanitizeUrl` of the missing
`src/lib/security.ts`; §4.2 mentions an allowed-URL-scheme rule, modelled as
keeping the string only when it starts with an `http(s)` scheme. -/
def sanitizeUrl (s : String) : String :=
  if "http://".data.isPrefixOf s.data || "https://".data.isPrefixOf s.data
  then s else ""

/-- Modelled from the spec: the `rateLimiter` object of the missing
`src/lib/security.ts`; §5 describes a fixed-window counter of outgoing
requests per session.  One window slice is modelled as the current request
count together with the window's maximum. -/
structure RateLimiter where
  requestCount : Nat
  maxRequests : Nat
  deriving DecidableEq, Repr

/-- Modelled from the spec: `rateLimiter.canMakeRequest()` — true while the
fixed window still has room. -/
def canMakeRequest (rl : RateLimiter) : Bool :=
  rl.requestCount < rl.maxRequests

/-- Model of `checkRateLimit` (`src/lib/store.ts`): false (with a logged
warning) when the limiter refuses the request. -/
def checkRateLimit (rl : RateLimiter) : Bool := canMakeRequest rl

/-- Daily Entry record (fields as used by `src/lib/store.ts`). -/
structure DailyEntry where
  id : String
  date : String
  workedOn : String
  shipped : String
  traceDate : String
  pinned : Bool
  position : Nat
  deriving DecidableEq, Repr

/-- Idea record.  `platform` is optional in TypeScript; absence is modelled
as `""`. -/
structure Idea where
  id : String
  date : String
  thought : String
  category : String
  urgency : String
  status : String
  platform : String
  executed : Bool
  pinned : Bool
  traceDate : String
  deriving DecidableEq, Repr

/-- Weekly Outcome record. -/
structure WeeklyOutcome where
  id : String
  weekStarting : String
  build : String
  ship : String
  learn : String
  status : String
  reviewGenerated : Bool
  traceDate : String
  deriving DecidableEq, Repr

/-- The TypeScript union `'Pending' | 'In Progress' | 'Completed'`. -/
inductive TodoStatus where
  | pending
  | inProgress
  | completed
  deriving DecidableEq, Repr

/-- Todo record.  `completedAt` is optional (`undefined` ≙ `none`). -/
structure Todo where
  id : String
  title : String
  details : String
  deadline : String
  priority : String
  status : TodoStatus
  completed : Bool
  createdAt : String
  traceDate : String
  timeSlot : String
  targetTime : String
  pinned : Bool
  completedAt : Option String
  deriving DecidableEq, Repr

/-- Decision Gate record. -/
structure DecisionGate where
  id : String
  date : String
  decision : String
  outcome : String
  status : String
  traceDate : String
  deriving DecidableEq, Repr

/-- Contact record. -/
structure Contact where
  id : String
  name : String
  company : String
  email : String
  linkedin : String
  xAccount : String
  notes : String
  dateAdded : String
  traceDate : String
  avatarUrl : String
  deriving DecidableEq, Repr

/-- Discovery record. -/
structure Discovery where
  id : String
  title : String
  url : String
  description : String
  category : String
  impact : String
  dateAdded : String
  traceDate : String
  pinned : Bool
  deriving DecidableEq, Repr

/-- Expense record.  `amount` is a JavaScript number used only as an opaque
value by the storage layer; modelled as `Int`. -/
structure Expense where
  id : String
  title : String
  amount : Int
  category : String
  date : String
  createdAt : String
  traceDate : String
  deriving DecidableEq, Repr

/-- Insert payload of `daily_entries`.  The legacy schema-compatibility
retry omits the `pinned`/`position` columns, modelled as `none`. -/
structure DailyInsertRow where
  id : String
  date : String
  worked_on : String
  shipped : String
  trace_date : String
  pinned : Option Bool
  position : Option Nat
  deriving DecidableEq, Repr

/-- Update payload of `daily_entries` (`eqId` is the `.eq('id', …)` filter);
the legacy retry omits `pinned`/`position`. -/
structure DailyUpdateRow where
  eqId : String
  date : String
  worked_on : String
  shipped : String
  trace_date : String
  pinned : Option Bool
  position : Option Nat
  deriving DecidableEq, Repr

/-- Insert payload of `ideas`. -/
structure IdeaInsertRow where
  id : String
  date : String
  thought : String
  category : String
  urgency : String
  status : String
  platform : String
  executed : Bool
  pinned : Bool
  trace_date : String
  deriving DecidableEq, Repr

/-- Update payload of `ideas`. -/
structure IdeaUpdateRow where
  eqId : String
  date : String
  thought : String
  category : String
  urgency : String
  status : String
  platform : String
  executed : Bool
  pinned : Bool
  trace_date : String
  deriving DecidableEq, Repr

/-- Insert payload of `weekly_outcomes`. -/
structure WeeklyInsertRow where
  id : String
  week_starting : String
  build : String
  ship : String
  learn : String
  status : String
  review_generated : Bool
  trace_date : String
  deriving DecidableEq, Repr

/-- Update payload of `weekly_outcomes`. -/
structure WeeklyUpdateRow where
  eqId : String
  week_starting : String
  build : String
  ship : String
  learn : String
  status : String
  review_generated : Bool
  trace_date : String
  deriving DecidableEq, Repr

/-- Insert payload of `todos`. -/
structure TodoInsertRow where
  id : String
  title : String
  details : String
  deadline : String
  priority : String
  status : TodoStatus
  completed : Bool
  created_at : String
  trace_date : String
  time_slot : String
  target_time : String
  pinned : Bool
  completed_at : Option String
  deriving DecidableEq, Repr

/-- Update payload of `todos` (no `created_at` column in updates). -/
structure TodoUpdateRow where
  eqId : String
  title : String
  details : String
  deadline : String
  priority : String
  status : TodoStatus
  completed : Bool
  trace_date : String
  time_slot : String
  target_time : String
  pinned : Bool
  completed_at : Option String
  deriving DecidableEq, Repr

/-- Insert payload of `decision_gates`. -/
structure DecisionInsertRow where
  id : String
  date : String
  decision : String
  outcome : String
  status : String
  trace_date : String
  deriving DecidableEq, Repr

/-- Update payload of `decision_gates`. -/
structure DecisionUpdateRow where
  eqId : String
  decision : String
  outcome : String
  status : String
  trace_date : String
  deriving DecidableEq, Repr

/-- Insert payload of `contacts`. -/
structure ContactInsertRow where
  id : String
  name : String
  company : String
  email : String
  linkedin : String
  x_account : String
  notes : String
  date_added : String
  trace_date : String
  avatar_url : String
  deriving DecidableEq, Repr

/-- Update payload of `contacts`. -/
structure ContactUpdateRow where
  eqId : String
  name : String
  company : String
  email : String
  linkedin : String
  x_account : String
  notes : String
  date_added : String
  trace_date : String
  avatar_url : String
  deriving DecidableEq, Repr

/-- Insert payload of `discoveries`. -/
structure DiscoveryInsertRow where
  id : String
  title : String
  url : String
  description : String
  category : String
  impact : String
  date_added : String
  trace_date : String
  pinned : Bool
  deriving DecidableEq, Repr

/-- Update payload of `discoveries`. -/
structure DiscoveryUpdateRow where
  eqId : String
  title : String
  url : String
  description : String
  category : String
  impact : String
  date_added : String
  trace_date : String
  pinned : Bool
  deriving DecidableEq, Repr

/-- Insert payload of `expenses`. -/
structure ExpenseInsertRow where
  id : String
  title : String
  amount : Int
  category : String
  date : String
  created_at : String
  trace_date : String
  deriving DecidableEq, Repr

/-- Observable outcome of one façade write call: the cache contents after
the call completes, and the remote payload rows issued, in order.  An
intermediate optimistic cache state is written and possibly reverted inside
the operation; `cache` is the state once the call has finished. -/
structure WriteResult (α ρ : Type) where
  cache : List α
  requests : List ρ
  deriving DecidableEq, Repr

/-- Observable outcome of one façade fetch call: the returned collection,
the cache afterwards, and how many remote select attempts were issued. -/
structure FetchResult (α : Type) where
  result : List α
  cache : List α
  attempts : Nat
  deriving DecidableEq, Repr

/-- Row of the `daily_entries` table as returned by a select; nullable
columns are `Option`. -/
structure DailyDbRow where
  id : String
  date : String
  worked_on : String
  shipped : String
  trace_date : Option String
  pinned : Option Bool
  position : Option Nat
  deriving DecidableEq, Repr

/-- Row of the `ideas` table as returned by a select. -/
structure IdeaDbRow where
  id : String
  date : String
  thought : String
  category : String
  urgency : String
  status : String
  platform : String
  executed : Option Bool
  pinned : Option Bool
  trace_date : Option String
  deriving DecidableEq, Repr

/-- Mapping of a fetched `daily_entries` row into the application record
(`fetchDailyEntries` in `src/lib/store.ts`). -/
def dailyEntryOfRow (row : DailyDbRow) : DailyEntry :=
  { id := row.id
    date := row.date
    workedOn := row.worked_on
    shipped := row.shipped
    traceDate := strOr (row.trace_date.getD "") row.date
    pinned := row.pinned.getD false
    position := row.position.getD 0 }

/-- Mapping of a fetched `ideas` row into the application record
(`fetchIdeas` in `src/lib/store.ts`). -/
def ideaOfRow (row : IdeaDbRow) : Idea :=
  { id := row.id
    date := row.date
    thought := row.thought
    category := row.category
    urgency := row.urgency
    status := row.status
    platform := row.platform
    executed := row.executed.getD false
    pinned := row.pinned.getD false
    traceDate := strOr (row.trace_date.getD "") row.date }

namespace Storage

/-- Model of `Storage.getDailyEntries`: synchronous read of the cached
collection.  The JSON stringify/parse round trip through `localStorage`
(which degrades to `[]` on corrupt data) is not modelled. -/
def getDailyEntries (cache : List DailyEntry) : List DailyEntry := cache

/-- Model of `Storage.getIdeas` (cached snapshot read). -/
def getIdeas (cache : List Idea) : List Idea := cache

/-- Model of `Storage.getWeeklyOutcomes` (cached snapshot read). -/
def getWeeklyOutcomes (cache : List WeeklyOutcome) : List WeeklyOutcome := cache

/-- Model of `Storage.getTodos` (cached snapshot read). -/
def getTodos (cache : List Todo) : List Todo := cache

/-- Model of `Storage.getDecisions` (cached snapshot read). -/
def getDecisions (cache : List DecisionGate) : List DecisionGate := cache

/-- Model of `Storage.getContacts` (cached snapshot read). -/
def getContacts (cache : List Contact) : List Contact := cache

/-- Model of `Storage.getDiscoveries` (cached snapshot read). -/
def getDiscoveries (cache : List Discovery) : List Discovery := cache

/-- Model of `Storage.getExpenses` (cached snapshot read). -/
def getExpenses (cache : List Expense) : List Expense := cache

/-- Model of `Storage.fetchDailyEntries`: first select orders by
`pinned`/`position`/`trace_date`; on error a legacy select (by `trace_date`
only) is attempted; if that errors too the cached snapshot is returned
unchanged.  `rows` is what the succeeding select returns; `attempts` counts
the selects issued. -/
def fetchDailyEntries (configured : Bool) (fail1 fail2 : Bool)
    (rows : List DailyDbRow) (cache : List DailyEntry) :
    FetchResult DailyEntry :=
  if !configured then ⟨cache, cache, 0⟩
  else if fail1 && fail2 then ⟨cache, cache, 2⟩
  else
    let entries := rows.map dailyEntryOfRow
    ⟨entries, entries, if fail1 then 2 else 1⟩

/-- Model of `Storage.fetchIdeas`: a single select; on error the cached
snapshot is returned unchanged. -/
def fetchIdeas (configured : Bool) (fail : Bool)
    (rows : List IdeaDbRow) (cache : List Idea) : FetchResult Idea :=
  if !configured then ⟨cache, cache, 0⟩
  else if fail then ⟨cache, cache, 1⟩
  else
    let ideas := rows.map ideaOfRow
    ⟨ideas, ideas, 1⟩

/-- Model of `Storage.saveDailyEntry`.  Guard, sanitize, default the trace
date to the current local date, optimistic prepend, insert with the new
columns; on error retry a legacy-shape insert; only if the retry also fails
is the cache reverted to its pre-write state. -/
def saveDailyEntry (rl : RateLimiter) (configured : Bool) (off t : Int)
    (fail1 fail2 : Bool) (entry : DailyEntry) (cache : List DailyEntry) :
    WriteResult DailyEntry DailyInsertRow :=
  if !(checkRateLimit rl && configured) then ⟨cache, []⟩
  else
    let traceDate := strOr entry.traceDate (getLocalDateAt off t)
    let s : DailyEntry :=
      { entry with
        workedOn := sanitizeText entry.workedOn
        shipped := sanitizeText entry.shipped
        traceDate := traceDate }
    let previousCache := getDailyEntries cache
    let optimistic := s :: previousCache
    let row : DailyInsertRow :=
      ⟨s.id, s.date, s.workedOn, s.shipped, s.traceDate,
        some s.pinned, some s.position⟩
    if fail1 then
      let legacyRow : DailyInsertRow :=
        ⟨s.id, s.date, s.workedOn, s.shipped, s.traceDate, none, none⟩
      if fail2 then ⟨previousCache, [row, legacyRow]⟩
      else ⟨optimistic, [row, legacyRow]⟩
    else ⟨optimistic, [row]⟩

/-- Model of `Storage.updateDailyEntry`: optimistic in-place replacement by
id, update with the new columns, legacy-shape retry on error, revert only
when the retry fails too. -/
def updateDailyEntry (rl : RateLimiter) (configured : Bool)
    (fail1 fail2 : Bool) (updatedEntry : DailyEntry)
    (cache : List DailyEntry) : WriteResult DailyEntry DailyUpdateRow :=
  if !(checkRateLimit rl && configured) then ⟨cache, []⟩
  else
    let previousCache := getDailyEntries cache
    let updatedCache :=
      previousCache.map (fun e => if e.id = updatedEntry.id then updatedEntry else e)
    let row : DailyUpdateRow :=
      ⟨updatedEntry.id, updatedEntry.date, sanitizeText updatedEntry.workedOn,
        sanitizeText updatedEntry.shipped, updatedEntry.traceDate,
        some updatedEntry.pinned, some updatedEntry.position⟩
    if fail1 then
      let legacyRow : DailyUpdateRow :=
        ⟨updatedEntry.id, updatedEntry.date, sanitizeText updatedEntry.workedOn,
          sanitizeText updatedEntry.shipped, updatedEntry.traceDate, none, none⟩
      if fail2 then ⟨previousCache, [row, legacyRow]⟩
      else ⟨updatedCache, [row, legacyRow]⟩
    else ⟨updatedCache, [row]⟩

/-- Model of `Storage.deleteDailyEntry`: optimistic removal, single delete
request, revert on error. -/
def deleteDailyEntry (rl : RateLimiter) (configured : Bool) (fail : Bool)
    (id : String) (cache : List DailyEntry) : WriteResult DailyEntry String :=
  if !(checkRateLimit rl && configured) then ⟨cache, []⟩
  else
    let previousCache := getDailyEntries cache
    let removed := previousCache.filter (fun e => e.id != id)
    if fail then ⟨previousCache, [id]⟩ else ⟨removed, [id]⟩

/-- Model of `Storage.saveIdea`: guard, sanitize the thought, default the
trace date, optimistic prepend, single insert, revert on error. -/
def saveIdea (rl : RateLimiter) (configured : Bool) (off t : Int)
    (fail : Bool) (idea : Idea) (cache : List Idea) :
    WriteResult Idea IdeaInsertRow :=
  if !(checkRateLimit rl && configured) then ⟨cache, []⟩
  else
    let traceDate := strOr idea.traceDate (getLocalDateAt off t)
    let s : Idea :=
      { idea with thought := sanitizeText idea.thought, traceDate := traceDate }
    let previousCache := getIdeas cache
    let optimistic := s :: previousCache
    let row : IdeaInsertRow :=
      ⟨s.id, s.date, s.thought, s.category, s.urgency, s.status, s.platform,
        s.executed, s.pinned, s.traceDate⟩
    if fail then ⟨previousCache, [row]⟩ else ⟨optimistic, [row]⟩

/-- Model of `Storage.updateIdea`: the CALLER'S record is written to the
cache verbatim; only the remote payload has `sanitizeText` applied to the
thought.  Revert on error. -/
def updateIdea (rl : RateLimiter) (configured : Bool) (fail : Bool)
    (updatedIdea : Idea) (cache : List Idea) : WriteResult Idea IdeaUpdateRow :=
  if !(checkRateLimit rl && configured) then ⟨cache, []⟩
  else
    let previousCache := getIdeas cache
    let updatedCache :=
      previousCache.map (fun i => if i.id = updatedIdea.id then updatedIdea else i)
    let row : IdeaUpdateRow :=
      ⟨updatedIdea.id, updatedIdea.date, sanitizeText updatedIdea.thought,
        updatedIdea.category, updatedIdea.urgency, updatedIdea.status,
        updatedIdea.platform, updatedIdea.executed, updatedIdea.pinned,
        updatedIdea.traceDate⟩
    if fail then ⟨previousCache, [row]⟩ else ⟨updatedCache, [row]⟩

/-- Model of `Storage.deleteIdea`. -/
def deleteIdea (rl : RateLimiter) (configured : Bool) (fail : Bool)
    (id : String) (cache : List Idea) : WriteResult Idea String :=
  if !(checkRateLimit rl && configured) then ⟨cache, []⟩
  else
    let previousCache := getIdeas cache
    let removed := previousCache.filter (fun i => i.id != id)
    if fail then ⟨previousCache, [id]⟩ else ⟨removed, [id]⟩

/-- Model of `Storage.saveWeeklyOutcome`. -/
def saveWeeklyOutcome (rl : RateLimiter) (configured : Bool) (off t : Int)
    (fail : Bool) (outcome : WeeklyOutcome) (cache : List WeeklyOutcome) :
    WriteResult WeeklyOutcome WeeklyInsertRow :=
  if !(checkRateLimit rl && configured) then ⟨cache, []⟩
  else
    let traceDate := strOr outcome.traceDate (getLocalDateAt off t)
    let s : WeeklyOutcome :=
      { outcome with
        build := sanitizeText outcome.build
        ship := sanitizeText outcome.ship
        learn := sanitizeText outcome.learn
        traceDate := traceDate }
    let previousCache := getWeeklyOutcomes cache
    let optimistic := s :: previousCache
    let row : WeeklyInsertRow :=
      ⟨s.id, s.weekStarting, s.build, s.ship, s.learn, s.status,
        s.reviewGenerated, s.traceDate⟩
    if fail then ⟨previousCache, [row]⟩ else ⟨optimistic, [row]⟩

/-- Model of `Storage.updateWeeklyOutcome`. -/
def updateWeeklyOutcome (rl : RateLimiter) (configured : Bool) (fail : Bool)
    (updated : WeeklyOutcome) (cache : List WeeklyOutcome) :
    WriteResult WeeklyOutcome WeeklyUpdateRow :=
  if !(checkRateLimit rl && configured) then ⟨cache, []⟩
  else
    let previousCache := getWeeklyOutcomes cache
    let updatedCache :=
      previousCache.map (fun o => if o.id = updated.id then updated else o)
    let row : WeeklyUpdateRow :=
      ⟨updated.id, updated.weekStarting, sanitizeText updated.build,
        sanitizeText updated.ship, sanitizeText updated.learn, updated.status,
        updated.reviewGenerated, updated.traceDate⟩
    if fail then ⟨previousCache, [row]⟩ else ⟨updatedCache, [row]⟩

/-- Model of `Storage.deleteWeeklyOutcome`. -/
def deleteWeeklyOutcome (rl : RateLimiter) (configured : Bool) (fail : Bool)
    (id : String) (cache : List WeeklyOutcome) :
    WriteResult WeeklyOutcome String :=
  if !(checkRateLimit rl && configured) then ⟨cache, []⟩
  else
    let previousCache := getWeeklyOutcomes cache
    let removed := previousCache.filter (fun o => o.id != id)
    if fail then ⟨previousCache, [id]⟩ else ⟨removed, [id]⟩

/-- Model of `Storage.saveTodo`. -/
def saveTodo (rl : RateLimiter) (configured : Bool) (off t : Int)
    (fail : Bool) (todo : Todo) (cache : List Todo) :
    WriteResult Todo TodoInsertRow :=
  if !(checkRateLimit rl && configured) then ⟨cache, []⟩
  else
    let traceDate := strOr todo.traceDate (getLocalDateAt off t)
    let s : Todo :=
      { todo with
        title := sanitizeText todo.title
        details := sanitizeText todo.details
        traceDate := traceDate }
    let previousCache := getTodos cache
    let optimistic := s :: previousCache
    let row : TodoInsertRow :=
      ⟨s.id, s.title, s.details, s.deadline, s.priority, s.status, s.completed,
        s.createdAt, s.traceDate, s.timeSlot, s.targetTime, s.pinned,
        s.completedAt⟩
    if fail then ⟨previousCache, [row]⟩ else ⟨optimistic, [row]⟩

/-- Model of `Storage.updateTodo`: cache stores the caller's record
verbatim; the remote payload has `sanitizeText` on title and details. -/
def updateTodo (rl : RateLimiter) (configured : Bool) (fail : Bool)
    (updated : Todo) (cache : List Todo) : WriteResult Todo TodoUpdateRow :=
  if !(checkRateLimit rl && configured) then ⟨cache, []⟩
  else
    let previousCache := getTodos cache
    let updatedCache :=
      previousCache.map (fun td => if td.id = updated.id then updated else td)
    let row : TodoUpdateRow :=
      ⟨updated.id, sanitizeText updated.title, sanitizeText updated.details,
        updated.deadline, updated.priority, updated.status, updated.completed,
        updated.traceDate, updated.timeSlot, updated.targetTime, updated.pinned,
        updated.completedAt⟩
    if fail then ⟨previousCache, [row]⟩ else ⟨updatedCache, [row]⟩

/-- Model of `Storage.deleteTodo`. -/
def deleteTodo (rl : RateLimiter) (configured : Bool) (fail : Bool)
    (id : String) (cache : List Todo) : WriteResult Todo String :=
  if !(checkRateLimit rl && configured) then ⟨cache, []⟩
  else
    let previousCache := getTodos cache
    let removed := previousCache.filter (fun td => td.id != id)
    if fail then ⟨previousCache, [id]⟩ else ⟨removed, [id]⟩

/-- Model of `Storage.saveDecision`. -/
def saveDecision (rl : RateLimiter) (configured : Bool) (off t : Int)
    (fail : Bool) (decision : DecisionGate) (cache : List DecisionGate) :
    WriteResult DecisionGate DecisionInsertRow :=
  if !(checkRateLimit rl && configured) then ⟨cache, []⟩
  else
    let traceDate := strOr decision.traceDate (getLocalDateAt off t)
    let s : DecisionGate :=
      { decision with
        decision := sanitizeText decision.decision
        outcome := sanitizeText decision.outcome
        traceDate := traceDate }
    let previousCache := getDecisions cache
    let optimistic := s :: previousCache
    let row : DecisionInsertRow :=
      ⟨s.id, s.date, s.decision, s.outcome, s.status, s.traceDate⟩
    if fail then ⟨previousCache, [row]⟩ else ⟨optimistic, [row]⟩

/-- Model of `Storage.updateDecision`. -/
def updateDecision (rl : RateLimiter) (configured : Bool) (fail : Bool)
    (updated : DecisionGate) (cache : List DecisionGate) :
    WriteResult DecisionGate DecisionUpdateRow :=
  if !(checkRateLimit rl && configured) then ⟨cache, []⟩
  else
    let previousCache := getDecisions cache
    let updatedCache :=
      previousCache.map (fun d => if d.id = updated.id then updated else d)
    let row : DecisionUpdateRow :=
      ⟨updated.id, sanitizeText updated.decision, sanitizeText updated.outcome,
        updated.status, updated.traceDate⟩
    if fail then ⟨previousCache, [row]⟩ else ⟨updatedCache, [row]⟩

/-- Model of `Storage.deleteDecision`. -/
def deleteDecision (rl : RateLimiter) (configured : Bool) (fail : Bool)
    (id : String) (cache : List DecisionGate) :
    WriteResult DecisionGate String :=
  if !(checkRateLimit rl && configured) then ⟨cache, []⟩
  else
    let previousCache := getDecisions cache
    let removed := previousCache.filter (fun d => d.id != id)
    if fail then ⟨previousCache, [id]⟩ else ⟨removed, [id]⟩

/-- Model of `Storage.saveContact`. -/
def saveContact (rl : RateLimiter) (configured : Bool) (off t : Int)
    (fail : Bool) (contact : Contact) (cache : List Contact) :
    WriteResult Contact ContactInsertRow :=
  if !(checkRateLimit rl && configured) then ⟨cache, []⟩
  else
    let traceDate := strOr contact.traceDate (getLocalDateAt off t)
    let s : Contact :=
      { contact with
        name := sanitizeText contact.name
        company := sanitizeText contact.company
        email := sanitizeEmail contact.email
        linkedin := sanitizeUrl contact.linkedin
        xAccount := sanitizeText contact.xAccount
        notes := sanitizeText contact.notes
        traceDate := traceDate
        avatarUrl := sanitizeUrl (strOr contact.avatarUrl "") }
    let previousCache := getContacts cache
    let optimistic := s :: previousCache
    let row : ContactInsertRow :=
      ⟨s.id, s.name, s.company, s.email, s.linkedin, s.xAccount, s.notes,
        s.dateAdded, s.traceDate, s.avatarUrl⟩
    if fail then ⟨previousCache, [row]⟩ else ⟨optimistic, [row]⟩

/-- Model of `Storage.updateContact`: cache stores the caller's record
verbatim.  In the remote payload `name`, `company`, `notes` get
`sanitizeText`, `email` gets `sanitizeEmail`, `linkedin` gets `sanitizeUrl`,
while `x_account` and `avatar_url` are sent through UNsanitized (exactly as
in the source). -/
def updateContact (rl : RateLimiter) (configured : Bool) (fail : Bool)
    (updated : Contact) (cache : List Contact) :
    WriteResult Contact ContactUpdateRow :=
  if !(checkRateLimit rl && configured) then ⟨cache, []⟩
  else
    let previousCache := getContacts cache
    let updatedCache :=
      previousCache.map (fun c => if c.id = updated.id then updated else c)
    let row : ContactUpdateRow :=
      ⟨updated.id, sanitizeText updated.name, sanitizeText updated.company,
        sanitizeEmail updated.email, sanitizeUrl updated.linkedin,
        updated.xAccount, sanitizeText updated.notes, updated.dateAdded,
        updated.traceDate, updated.avatarUrl⟩
    if fail then ⟨previousCache, [row]⟩ else ⟨updatedCache, [row]⟩

/-- Model of `Storage.deleteContact`. -/
def deleteContact (rl : RateLimiter) (configured : Bool) (fail : Bool)
    (id : String) (cache : List Contact) : WriteResult Contact String :=
  if !(checkRateLimit rl && configured) then ⟨cache, []⟩
  else
    let previousCache := getContacts cache
    let removed := previousCache.filter (fun c => c.id != id)
    if fail then ⟨previousCache, [id]⟩ else ⟨removed, [id]⟩

/-- Model of `Storage.saveDiscovery`. -/
def saveDiscovery (rl : RateLimiter) (configured : Bool) (off t : Int)
    (fail : Bool) (discovery : Discovery) (cache : List Discovery) :
    WriteResult Discovery DiscoveryInsertRow :=
  if !(checkRateLimit rl && configured) then ⟨cache, []⟩
  else
    let traceDate := strOr discovery.traceDate (getLocalDateAt off t)
    let s : Discovery :=
      { discovery with
        title := sanitizeText discovery.title
        url := sanitizeUrl discovery.url
        description := sanitizeText discovery.description
        category := sanitizeText discovery.category
        traceDate := traceDate }
    let previousCache := getDiscoveries cache
    let optimistic := s :: previousCache
    let row : DiscoveryInsertRow :=
      ⟨s.id, s.title, s.url, s.description, s.category, s.impact, s.dateAdded,
        s.traceDate, s.pinned⟩
    if fail then ⟨previousCache, [row]⟩ else ⟨optimistic, [row]⟩

/-- Model of `Storage.updateDiscovery`. -/
def updateDiscovery (rl : RateLimiter) (configured : Bool) (fail : Bool)
    (updated : Discovery) (cache : List Discovery) :
    WriteResult Discovery DiscoveryUpdateRow :=
  if !(checkRateLimit rl && configured) then ⟨cache, []⟩
  else
    let previousCache := getDiscoveries cache
    let updatedCache :=
      previousCache.map (fun d => if d.id = updated.id then updated else d)
    let row : DiscoveryUpdateRow :=
      ⟨updated.id, sanitizeText updated.title, sanitizeUrl updated.url,
        sanitizeText updated.description, sanitizeText updated.category,
        updated.impact, updated.dateAdded, updated.traceDate, updated.pinned⟩
    if fail then ⟨previousCache, [row]⟩ else ⟨updatedCache, [row]⟩

/-- Model of `Storage.deleteDiscovery`. -/
def deleteDiscovery (rl : RateLimiter) (configured : Bool) (fail : Bool)
    (id : String) (cache : List Discovery) : WriteResult Discovery String :=
  if !(checkRateLimit rl && configured) then ⟨cache, []⟩
  else
    let previousCache := getDiscoveries cache
    let removed := previousCache.filter (fun d => d.id != id)
    if fail then ⟨previousCache, [id]⟩ else ⟨removed, [id]⟩

/-- Model of `Storage.saveExpense`.  NOTE: unlike every other save, the
default trace date is `new Date().toISOString().split('T')[0]` — the UTC
calendar date — not `getLocalDate()`; the model reproduces this. -/
def saveExpense (rl : RateLimiter) (configured : Bool) (t : Int)
    (fail : Bool) (expense : Expense) (cache : List Expense) :
    WriteResult Expense ExpenseInsertRow :=
  if !(checkRateLimit rl && configured) then ⟨cache, []⟩
  else
    let traceDate := strOr expense.traceDate (expenseDefaultTraceDate t)
    let s : Expense :=
      { expense with title := sanitizeText expense.title, traceDate := traceDate }
    let previousCache := getExpenses cache
    let optimistic := s :: previousCache
    let row : ExpenseInsertRow :=
      ⟨s.id, s.title, s.amount, s.category, s.date, s.createdAt, s.traceDate⟩
    if fail then ⟨previousCache, [row]⟩ else ⟨optimistic, [row]⟩

/-- Model of `Storage.deleteExpense`. -/
def deleteExpense (rl : RateLimiter) (configured : Bool) (fail : Bool)
    (id : String) (cache : List Expense) : WriteResult Expense String :=
  if !(checkRateLimit rl && configured) then ⟨cache, []⟩
  else
    let previousCache := getExpenses cache
    let removed := previousCache.filter (fun e => e.id != id)
    if fail then ⟨previousCache, [id]⟩ else ⟨removed, [id]⟩

end Storage

/-- Model of `String.prototype.localeCompare` restricted to the ASCII date
strings the views compare: sign of the lexicographic comparison. -/
def localeCompare (a b : String) : Int :=
  match compare a b with
  | .lt => -1
  | .eq => 0
  | .gt => 1

/-- The Idea-inbox sort comparator (`src/unnamed/part_000`, the `ideas.sort`
callback): first by executed status (unexecuted first), then by pinned
status (pinned first), finally by trace date descending. -/
def ideasCmp (a b : Idea) : Int :=
  let aExecuted := a.executed
  let bExecuted := b.executed
  if aExecuted ≠ bExecuted then (if aExecuted then 1 else -1)
  else
    let aPinned := a.pinned
    let bPinned := b.pinned
    if aPinned ≠ bPinned then (if aPinned then -1 else 1)
    else localeCompare (strOr b.traceDate b.date) (strOr a.traceDate a.date)

/-- Stable insertion step with respect to a JavaScript-style comparator
(`cmp x y ≤ 0` places `x` no later than `y`). -/
def insertByCmp (cmp : α → α → Int) (x : α) : List α → List α
  | [] => [x]
  | y :: ys => if cmp x y ≤ 0 then x :: y :: ys else y :: insertByCmp cmp x ys

/-- Stable comparator sort: model of `Array.prototype.sort(cmp)` (stable per
the ECMAScript specification). -/
def sortByCmp (cmp : α → α → Int) : List α → List α
  | [] => []
  | x :: xs => insertByCmp cmp x (sortByCmp cmp xs)

/-- Sorted rendering order of the Idea inbox. -/
def sortIdeas (ideas : List Idea) : List Idea := sortByCmp ideasCmp ideas

/-- Model of `toggleComplete` in the TodoList view (`src/unnamed/part_001`):
flip `completed`, force `status` to Completed/Pending accordingly, stamp or
clear `completedAt`.  `t` is the instant of the ambient
`new Date().toISOString()` call. -/
def toggleComplete (t : Int) (todo : Todo) : Todo :=
  let isCompleting := !todo.completed
  { todo with
    completed := isCompleting
    status := if isCompleting then TodoStatus.completed else TodoStatus.pending
    completedAt := if isCompleting then some (toISOStringAt t) else none }

/-- Model of `updateStatus` in the TodoList view (`src/unnamed/part_001`):
set the status, derive `completed`, and stamp/clear/keep `completedAt`
depending on whether the call completes or un-completes the todo. -/
def updateStatus (t : Int) (todo : Todo) (status : TodoStatus) : Todo :=
  let isCompleting := status = TodoStatus.completed ∧ todo.completed = false
  let isUncompleting := status ≠ TodoStatus.completed ∧ todo.completed = true
  { todo with
    status := status
    completed := decide (status = TodoStatus.completed)
    completedAt :=
      if isCompleting then some (toISOStringAt t)
      else if isUncompleting then none
      else todo.completedAt }

/-- The Insights streak loop (`src/components/ContactManager.tsx`, the
`metrics` memo): walk the day window from index 0 (today) backward; a day
with an entry increments the streak; a day without one ends the loop UNLESS
it is index 0.  `i` is the loop index, `streak` the accumulator. -/
def streakAux (logDates : List String) : Nat → Nat → List String → Nat
  | _, streak, [] => streak
  | i, streak, d :: rest =>
    if logDates.contains d then streakAux logDates (i + 1) (streak + 1) rest
    else if i > 0 then streak
    else streakAux logDates (i + 1) streak rest

/-- Streak metric computed by the Insights view over the day window
`days30` (today first, going backward; the view builds it capped at 30 days
and at the system start date) given the set of dates with a Daily Entry. -/
def streakOf (logDates days30 : List String) : Nat :=
  streakAux logDates 0 0 days30

/-- Definition written from the words of claim C3 (NOT from the source), for
comparison with the source-derived `streakOf`: the number of consecutive
days with at least one Daily Entry counting backward from today (the window
head), where ANY day without an entry — including today — ends the count. -/
def specStreakOf (logDates days30 : List String) : Nat :=
  (days30.takeWhile (fun d => logDates.contains d)).length

theorem streakAux_of_pos (logDates : List String) :
    ∀ (rest : List String) (i streak : Nat), 1 ≤ i →
      streakAux logDates i streak rest =
        streak + (rest.takeWhile (fun d => logDates.contains d)).length := by
  intro rest
  induction rest with
  | nil => intro i streak _; simp [streakAux]
  | cons d rest ih =>
    intro i streak hi
    simp only [streakAux, List.takeWhile_cons]
    by_cases hd : logDates.contains d = true
    · rw [if_pos hd, if_pos hd, ih (i + 1) (streak + 1) (by omega),
        List.length_cons]
      omega
    · rw [if_neg hd, if_neg hd, if_pos (show i > 0 by omega)]
      simp

/-- Closed-form behaviour of the streak loop: today contributes 1 when
logged and is skipped (not fatal) when not; from yesterday backward the
count is the maximal gap-free run. -/
theorem streakOf_cons (logDates : List String) (d : String)
    (rest : List String) :
    streakOf logDates (d :: rest) =
      (if logDates.contains d then 1 else 0) +
        (rest.takeWhile (fun x => logDates.contains x)).length := by
  unfold streakOf
  simp only [streakAux]
  by_cases hd : logDates.contains d = true
  · rw [if_pos hd, if_pos hd, streakAux_of_pos logDates rest 1 1 (by omega)]
  · rw [if_neg hd, if_neg hd, if_neg (show ¬ (0 > 0) by omega),
      streakAux_of_pos logDates rest 1 0 (by omega)]

/-- Sample records used to instantiate hypothesis-bearing theorems. -/
def sampleDaily : DailyEntry :=
  ⟨"d1", "2026-02-10", "worked", "shipped", "2026-02-10", false, 0⟩

/-- Sample Idea. -/
def sampleIdea : Idea :=
  ⟨"i1", "2026-02-10", "thought", "Content", "Medium", "Inbox", "", false,
    false, "2026-02-10"⟩

/-- Second sample Idea with a distinct identifier. -/
def sampleIdea2 : Idea :=
  ⟨"i2", "2026-02-09", "other", "Content", "Low", "Inbox", "", false,
    false, "2026-02-09"⟩

/-- Sample Weekly Outcome. -/
def sampleWeekly : WeeklyOutcome :=
  ⟨"w1", "2026-02-09", "b", "s", "l", "Partial", false, "2026-02-09"⟩

/-- Sample Todo (Pending, never completed). -/
def sampleTodo : Todo :=
  ⟨"t1", "Ship report", "", "2026-02-10", "High", TodoStatus.pending, false,
    "2026-02-01", "2026-02-01", "Anytime", "", false, none⟩

/-- Sample Decision Gate. -/
def sampleDecision : DecisionGate :=
  ⟨"g1", "2026-02-10", "dec", "", "Pending", "2026-02-10"⟩

/-- Sample Contact. -/
def sampleContact : Contact :=
  ⟨"c1", "Ada", "ACME", "a@b.co", "https://l.in/a", "@ada", "notes",
    "2026-02-10", "2026-02-10", "https://img.co/a.png"⟩

/-- Sample Discovery. -/
def sampleDiscovery : Discovery :=
  ⟨"v1", "Title", "https://x.co", "desc", "AI", "Linear", "2026-02-10",
    "2026-02-10", false⟩

/-- Sample Expense. -/
def sampleExpense : Expense :=
  ⟨"x1", "Coffee", 5, "Food", "2026-02-10", "2026-02-10", "2026-02-10"⟩

/-- Rate-limiter window with room left. -/
def rlOpen : RateLimiter := ⟨0, 60⟩

/-- Exhausted rate-limiter window. -/
def rlFull : RateLimiter := ⟨60, 60⟩

/-- C1: for every entity type and every initial cache state, if the remote
write issued by saveX, updateX, or deleteX fails (for Daily Entry: both the
primary attempt and the legacy retry fail), then after the call completes
the local cache for that entity equals the cache contents immediately
before the call — the optimistic mutation is fully reverted. -/
theorem failed_write_rollback
    (rl : RateLimiter) (cfg : Bool) (off t : Int)
    (hguard : (checkRateLimit rl && cfg) = true)
    (e : DailyEntry) (dc : List DailyEntry)
    (i : Idea) (ic : List Idea)
    (w : WeeklyOutcome) (wc : List WeeklyOutcome)
    (td : Todo) (tc : List Todo)
    (g : DecisionGate) (gc : List DecisionGate)
    (c : Contact) (cc : List Contact)
    (v : Discovery) (vc : List Discovery)
    (x : Expense) (xc : List Expense)
    (idArg : String) :
    (Storage.saveDailyEntry rl cfg off t true true e dc).cache = dc ∧
    (Storage.updateDailyEntry rl cfg true true e dc).cache = dc ∧
    (Storage.deleteDailyEntry rl cfg true idArg dc).cache = dc ∧
    (Storage.saveIdea rl cfg off t true i ic).cache = ic ∧
    (Storage.updateIdea rl cfg true i ic).cache = ic ∧
    (Storage.deleteIdea rl cfg true idArg ic).cache = ic ∧
    (Storage.saveWeeklyOutcome rl cfg off t true w wc).cache = wc ∧
    (Storage.updateWeeklyOutcome rl cfg true w wc).cache = wc ∧
    (Storage.deleteWeeklyOutcome rl cfg true idArg wc).cache = wc ∧
    (Storage.saveTodo rl cfg off t true td tc).cache = tc ∧
    (Storage.updateTodo rl cfg true td tc).cache = tc ∧
    (Storage.deleteTodo rl cfg true idArg tc).cache = tc ∧
    (Storage.saveDecision rl cfg off t true g gc).cache = gc ∧
    (Storage.updateDecision rl cfg true g gc).cache = gc ∧
    (Storage.deleteDecision rl cfg true idArg gc).cache = gc ∧
    (Storage.saveContact rl cfg off t true c cc).cache = cc ∧
    (Storage.updateContact rl cfg true c cc).cache = cc ∧
    (Storage.deleteContact rl cfg true idArg cc).cache = cc ∧
    (Storage.saveDiscovery rl cfg off t true v vc).cache = vc ∧
    (Storage.updateDiscovery rl cfg true v vc).cache = vc ∧
    (Storage.deleteDiscovery rl cfg true idArg vc).cache = vc ∧
    (Storage.saveExpense rl cfg t true x xc).cache = xc ∧
    (Storage.deleteExpense rl cfg true idArg xc).cache = xc := by
  refine ⟨?_, ?_, ?_, ?_, ?_, ?_, ?_, ?_, ?_, ?_, ?_, ?_, ?_, ?_, ?_, ?_,
    ?_, ?_, ?_, ?_, ?_, ?_, ?_⟩ <;>
    simp [Storage.saveDailyEntry, Storage.updateDailyEntry,
      Storage.deleteDailyEntry, Storage.saveIdea, Storage.updateIdea,
      Storage.deleteIdea, Storage.saveWeeklyOutcome,
      Storage.updateWeeklyOutcome, Storage.deleteWeeklyOutcome,
      Storage.saveTodo, Storage.updateTodo, Storage.deleteTodo,
      Storage.saveDecision, Storage.updateDecision, Storage.deleteDecision,
      Storage.saveContact, Storage.updateContact, Storage.deleteContact,
      Storage.saveDiscovery, Storage.updateDiscovery,
      Storage.deleteDiscovery, Storage.saveExpense, Storage.deleteExpense,
      Storage.getDailyEntries, Storage.getIdeas, Storage.getWeeklyOutcomes,
      Storage.getTodos, Storage.getDecisions, Storage.getContacts,
      Storage.getDiscoveries, Storage.getExpenses, hguard]

/-- Witness for C1 at concrete inputs. -/
theorem failed_write_rollback_witness :
    (checkRateLimit rlOpen && true) = true ∧
    (Storage.saveIdea rlOpen true (-300) 29513070 true sampleIdea
      [sampleIdea2]).cache = [sampleIdea2] ∧
    (Storage.updateDailyEntry rlOpen true true true sampleDaily
      [sampleDaily]).cache = [sampleDaily] ∧
    (Storage.deleteExpense rlOpen true true "x1" [sampleExpense]).cache =
      [sampleExpense] :=
  ⟨by decide,
    (failed_write_rollback rlOpen true (-300) 29513070 (by decide)
      sampleDaily [sampleDaily] sampleIdea [sampleIdea2] sampleWeekly []
      sampleTodo [] sampleDecision [] sampleContact [] sampleDiscovery []
      sampleExpense [sampleExpense] "x1").2.2.2.1,
    (failed_write_rollback rlOpen true (-300) 29513070 (by decide)
      sampleDaily [sampleDaily] sampleIdea [sampleIdea2] sampleWeekly []
      sampleTodo [] sampleDecision [] sampleContact [] sampleDiscovery []
      sampleExpense [sampleExpense] "x1").2.1,
    (failed_write_rollback rlOpen true (-300) 29513070 (by decide)
      sampleDaily [sampleDaily] sampleIdea [sampleIdea2] sampleWeekly []
      sampleTodo [] sampleDecision [] sampleContact [] sampleDiscovery []
      sampleExpense [sampleExpense] "x1").2.2.2.2.2.2.2.2.2.2.2.2.2.2.2.2.2.2.2.2.2.2⟩

/-- The post-collection is the pre-collection with every record carrying
`r`'s key replaced by exactly `r`: `r` itself occurs, the length is
unchanged, every position whose record had `r`'s key now holds `r`, and
every position with a different key is unchanged. -/
def ReplacesById {α : Type} (key : α → String) (r : α)
    (pre post : List α) : Prop :=
  r ∈ post ∧
  post.length = pre.length ∧
  ∀ k (hk : k < pre.length) (hk2 : k < post.length),
    (key (pre.get ⟨k, hk⟩) = key r → post.get ⟨k, hk2⟩ = r) ∧
    (key (pre.get ⟨k, hk⟩) ≠ key r → post.get ⟨k, hk2⟩ = pre.get ⟨k, hk⟩)

theorem replaceById_spec {α : Type} (key : α → String) (r : α)
    (cache : List α) (hmem : key r ∈ cache.map key) :
    ReplacesById key r cache
      (cache.map (fun x => if key x = key r then r else x)) := by
  unfold ReplacesById
  refine ⟨?_, by simp, ?_⟩
  · rcases List.mem_map.1 hmem with ⟨x, hx, hid⟩
    exact List.mem_map.2 ⟨x, hx, by simp [hid]⟩
  · intro k hk hk2
    constructor
    · intro hid
      have hid2 : key cache[k] = key r := by simpa using hid
      simp only [List.get_eq_getElem, List.getElem_map]
      rw [if_pos hid2]
    · intro hid
      have hid2 : ¬ key cache[k] = key r := by simpa using hid
      simp only [List.get_eq_getElem, List.getElem_map]
      rw [if_neg hid2]

/-- C2: for every entity type with an update operation (all except Expense,
which has none), when the guard passes and the remote update succeeds,
`updateX(r)` followed by `getX()` yields a collection in which every
position holding `r`'s identifier now holds exactly `r`, every position
with a different identifier is unchanged from the pre-call collection, and
the record `r` itself occurs. -/
theorem update_then_get_exact (rl : RateLimiter) (cfg : Bool)
    (hguard : (checkRateLimit rl && cfg) = true)
    (e : DailyEntry) (dc : List DailyEntry)
    (hmemD : e.id ∈ dc.map DailyEntry.id)
    (i : Idea) (ic : List Idea)
    (hmemI : i.id ∈ ic.map Idea.id)
    (w : WeeklyOutcome) (wc : List WeeklyOutcome)
    (hmemW : w.id ∈ wc.map WeeklyOutcome.id)
    (td : Todo) (tc : List Todo)
    (hmemT : td.id ∈ tc.map Todo.id)
    (g : DecisionGate) (gc : List DecisionGate)
    (hmemG : g.id ∈ gc.map DecisionGate.id)
    (c : Contact) (cc : List Contact)
    (hmemC : c.id ∈ cc.map Contact.id)
    (v : Discovery) (vc : List Discovery)
    (hmemV : v.id ∈ vc.map Discovery.id) :
    ReplacesById DailyEntry.id e dc
      (Storage.getDailyEntries
        (Storage.updateDailyEntry rl cfg false false e dc).cache) ∧
    ReplacesById Idea.id i ic
      (Storage.getIdeas (Storage.updateIdea rl cfg false i ic).cache) ∧
    ReplacesById WeeklyOutcome.id w wc
      (Storage.getWeeklyOutcomes
        (Storage.updateWeeklyOutcome rl cfg false w wc).cache) ∧
    ReplacesById Todo.id td tc
      (Storage.getTodos (Storage.updateTodo rl cfg false td tc).cache) ∧
    ReplacesById DecisionGate.id g gc
      (Storage.getDecisions (Storage.updateDecision rl cfg false g gc).cache) ∧
    ReplacesById Contact.id c cc
      (Storage.getContacts (Storage.updateContact rl cfg false c cc).cache) ∧
    ReplacesById Discovery.id v vc
      (Storage.getDiscoveries
        (Storage.updateDiscovery rl cfg false v vc).cache) := by
  refine ⟨?_, ?_, ?_, ?_, ?_, ?_, ?_⟩
  · have hres : Storage.getDailyEntries
        (Storage.updateDailyEntry rl cfg false false e dc).cache
        = dc.map (fun x => if DailyEntry.id x = DailyEntry.id e then e else x) := by
      simp [Storage.updateDailyEntry, Storage.getDailyEntries, hguard]
    rw [hres]
    exact replaceById_spec DailyEntry.id e dc hmemD
  · have hres : Storage.getIdeas (Storage.updateIdea rl cfg false i ic).cache
        = ic.map (fun x => if Idea.id x = Idea.id i then i else x) := by
      simp [Storage.updateIdea, Storage.getIdeas, hguard]
    rw [hres]
    exact replaceById_spec Idea.id i ic hmemI
  · have hres : Storage.getWeeklyOutcomes
        (Storage.updateWeeklyOutcome rl cfg false w wc).cache
        = wc.map (fun x => if WeeklyOutcome.id x = WeeklyOutcome.id w then w else x) := by
      simp [Storage.updateWeeklyOutcome, Storage.getWeeklyOutcomes, hguard]
    rw [hres]
    exact replaceById_spec WeeklyOutcome.id w wc hmemW
  · have hres : Storage.getTodos (Storage.updateTodo rl cfg false td tc).cache
        = tc.map (fun x => if Todo.id x = Todo.id td then td else x) := by
      simp [Storage.updateTodo, Storage.getTodos, hguard]
    rw [hres]
    exact replaceById_spec Todo.id td tc hmemT
  · have hres : Storage.getDecisions
        (Storage.updateDecision rl cfg false g gc).cache
        = gc.map (fun x => if DecisionGate.id x = DecisionGate.id g then g else x) := by
      simp [Storage.updateDecision, Storage.getDecisions, hguard]
    rw [hres]
    exact replaceById_spec DecisionGate.id g gc hmemG
  · have hres : Storage.getContacts
        (Storage.updateContact rl cfg false c cc).cache
        = cc.map (fun x => if Contact.id x = Contact.id c then c else x) := by
      simp [Storage.updateContact, Storage.getContacts, hguard]
    rw [hres]
    exact replaceById_spec Contact.id c cc hmemC
  · have hres : Storage.getDiscoveries
        (Storage.updateDiscovery rl cfg false v vc).cache
        = vc.map (fun x => if Discovery.id x = Discovery.id v then v else x) := by
      simp [Storage.updateDiscovery, Storage.getDiscoveries, hguard]
    rw [hres]
    exact replaceById_spec Discovery.id v vc hmemV

/-- Witness for C2 at concrete inputs. -/
theorem update_then_get_exact_witness :
    ((checkRateLimit rlOpen && true) = true ∧
      Idea.id { sampleIdea with thought := "new" } ∈
        List.map Idea.id [sampleIdea2, sampleIdea] ∧
      DailyEntry.id sampleDaily ∈ List.map DailyEntry.id [sampleDaily]) ∧
    ReplacesById DailyEntry.id sampleDaily [sampleDaily]
      (Storage.getDailyEntries
        (Storage.updateDailyEntry rlOpen true false false sampleDaily
          [sampleDaily]).cache) ∧
    ReplacesById Idea.id { sampleIdea with thought := "new" }
      [sampleIdea2, sampleIdea]
      (Storage.getIdeas (Storage.updateIdea rlOpen true false
        { sampleIdea with thought := "new" } [sampleIdea2, sampleIdea]).cache) :=
  ⟨⟨by decide, by decide, by decide⟩,
    (update_then_get_exact rlOpen true (by decide)
      sampleDaily [sampleDaily] (by decide)
      { sampleIdea with thought := "new" } [sampleIdea2, sampleIdea] (by decide)
      sampleWeekly [sampleWeekly] (by decide)
      sampleTodo [sampleTodo] (by decide)
      sampleDecision [sampleDecision] (by decide)
      sampleContact [sampleContact] (by decide)
      sampleDiscovery [sampleDiscovery] (by decide)).1,
    (update_then_get_exact rlOpen true (by decide)
      sampleDaily [sampleDaily] (by decide)
      { sampleIdea with thought := "new" } [sampleIdea2, sampleIdea] (by decide)
      sampleWeekly [sampleWeekly] (by decide)
      sampleTodo [sampleTodo] (by decide)
      sampleDecision [sampleDecision] (by decide)
      sampleContact [sampleContact] (by decide)
      sampleDiscovery [sampleDiscovery] (by decide)).2.1⟩

/-- C9: when the rate limiter's fixed window is exhausted, a `saveIdea` call
short-circuits before any network attempt — it issues no request and leaves
the cached idea collection exactly unchanged. -/
theorem saveIdea_rate_limited (rl : RateLimiter) (cfg : Bool) (off t : Int)
    (fail : Bool) (idea : Idea) (cache : List Idea)
    (hfull : rl.maxRequests ≤ rl.requestCount) :
    (Storage.saveIdea rl cfg off t fail idea cache).requests = [] ∧
    (Storage.saveIdea rl cfg off t fail idea cache).cache = cache := by
  have hrl : checkRateLimit rl = false := by
    simp [checkRateLimit, canMakeRequest]
    omega
  constructor <;> simp [Storage.saveIdea, hrl]

/-- Witness for C9 at concrete inputs. -/
theorem saveIdea_rate_limited_witness :
    rlFull.maxRequests ≤ rlFull.requestCount ∧
    (Storage.saveIdea rlFull true (-300) 29513070 false sampleIdea
      [sampleIdea2]).requests = [] ∧
    (Storage.saveIdea rlFull true (-300) 29513070 false sampleIdea
      [sampleIdea2]).cache = [sampleIdea2] :=
  ⟨by decide,
    saveIdea_rate_limited rlFull true (-300) 29513070 false sampleIdea
      [sampleIdea2] (by decide)⟩

/-- C3 counterexample: the claim says ANY day without an entry ends the
count, so with no entry today and an entry yesterday the streak would be 0;
the source loop (`else if (i > 0) break`) skips a missing entry at index 0
(today) and computes 1. -/
theorem streak_gap_at_today_counterexample :
    streakOf ["2026-02-09"] ["2026-02-10", "2026-02-09", "2026-02-08"] = 1 ∧
    specStreakOf ["2026-02-09"] ["2026-02-10", "2026-02-09", "2026-02-08"] = 0 ∧
    streakOf ["2026-02-09"] ["2026-02-10", "2026-02-09", "2026-02-08"] ≠
      specStreakOf ["2026-02-09"] ["2026-02-10", "2026-02-09", "2026-02-08"] := by
  refine ⟨by decide, by decide, by decide⟩

/-- C3 (amended): over the Insights day window (today first, built backward,
capped at 30 days and the system start), the streak equals 1 for today when
today has an entry plus the maximal gap-free run of logged days starting at
yesterday; a missing entry for TODAY does not end the count, any later gap
does.  In particular, with Daily Entries on consecutive dates D, D−1, D−2
and a gap at D−3, the streak computed on date D is 3. -/
theorem streak_closed_form (logDates : List String) (d0 : String)
    (rest : List String) :
    streakOf logDates (d0 :: rest) =
      (if logDates.contains d0 then 1 else 0) +
        (rest.takeWhile (fun x => logDates.contains x)).length ∧
    streakOf ["2026-02-10", "2026-02-09", "2026-02-08"]
      ["2026-02-10", "2026-02-09", "2026-02-08", "2026-02-07"] = 3 :=
  ⟨streakOf_cons logDates d0 rest, by decide⟩

/-- Pinned and executed Idea whose trace date is NEWER than the unexecuted
one below (used in the C4 counterexample). -/
def ideaPinnedExecuted : Idea :=
  ⟨"ia", "2026-02-01", "a", "Content", "Low", "Inbox", "", true, true,
    "2026-02-10"⟩

/-- Unpinned, unexecuted Idea with an older trace date. -/
def ideaUnpinnedUnexecuted : Idea :=
  ⟨"ib", "2026-02-01", "b", "Content", "Low", "Inbox", "", false, false,
    "2026-02-01"⟩

/-- Pinned, unexecuted Idea with the OLDEST trace date (used in the C4
witness to show pinning beats the date). -/
def ideaPinnedOld : Idea :=
  ⟨"ip", "2026-01-01", "p", "Content", "Low", "Inbox", "", false, true,
    "2026-01-01"⟩

/-- C4 counterexample: the claim says every pinned record sorts before every
unpinned one in the Idea inbox, but the comparator puts executed status
FIRST: a pinned executed idea is placed after an unpinned unexecuted one. -/
theorem pinned_sort_counterexample :
    ideaPinnedExecuted.pinned = true ∧
    ideaUnpinnedUnexecuted.pinned = false ∧
    sortIdeas [ideaPinnedExecuted, ideaUnpinnedUnexecuted] =
      [ideaUnpinnedUnexecuted, ideaPinnedExecuted] := by
  refine ⟨by decide, by decide, by decide⟩

/-- C4 (amended): within the same executed class, a pinned idea sorts before
an unpinned one regardless of trace date: the comparator returns −1, and in
either input order the two-element inbox renders the pinned idea first.
Executed status takes precedence over pinning. -/
theorem pinned_before_unpinned_same_executed (a b : Idea)
    (hexec : a.executed = b.executed)
    (hpa : a.pinned = true) (hpb : b.pinned = false) :
    ideasCmp a b = -1 ∧
    sortIdeas [a, b] = [a, b] ∧
    sortIdeas [b, a] = [a, b] := by
  have h1 : ideasCmp a b = -1 := by
    simp [ideasCmp, hexec, hpa, hpb]
  have h2 : ideasCmp b a = 1 := by
    simp [ideasCmp, hexec, hpa, hpb]
  refine ⟨h1, ?_, ?_⟩
  · simp [sortIdeas, sortByCmp, insertByCmp, h1]
  · simp [sortIdeas, sortByCmp, insertByCmp, h2]

/-- Witness for C4's amended theorem at concrete inputs: the pinned idea has
the OLDER trace date and is still placed first. -/
theorem pinned_before_unpinned_same_executed_witness :
    (ideaPinnedOld.executed = ideaUnpinnedUnexecuted.executed ∧
      ideaPinnedOld.pinned = true ∧ ideaUnpinnedUnexecuted.pinned = false) ∧
    sortIdeas [ideaUnpinnedUnexecuted, ideaPinnedOld] =
      [ideaPinnedOld, ideaUnpinnedUnexecuted] :=
  ⟨⟨by decide, by decide, by decide⟩,
    (pinned_before_unpinned_same_executed ideaPinnedOld ideaUnpinnedUnexecuted
      (by decide) (by decide) (by decide)).2.2⟩

theorem toISOStringAt_ne_empty (t : Int) : toISOStringAt t ≠ "" := by
  unfold toISOStringAt
  intro h
  have hdata := congrArg String.data h
  simp only at hdata
  rcases List.append_eq_nil.1 hdata with ⟨h1, _⟩
  exact formatYMD_ne_nil _ h1

/-- C5: `toggleComplete` and `updateStatus` preserve the invariant
`completed === (status === 'Completed')`, and (given the invariant holds
before the call) `completedAt` is stamped with a non-empty timestamp exactly
on a transition into Completed, cleared on a transition out, and untouched
otherwise; in particular `toggleComplete` on a Pending todo yields
`completed = true`, status Completed, a non-empty `completedAt`, and
toggling again clears `completedAt` and returns the status to Pending. -/
theorem todo_status_consistency (t₁ t₂ : Int) (todo : Todo)
    (newStatus : TodoStatus)
    (hinv : todo.completed = true ↔ todo.status = TodoStatus.completed) :
    ((toggleComplete t₁ todo).completed = true ↔
      (toggleComplete t₁ todo).status = TodoStatus.completed) ∧
    ((updateStatus t₁ todo newStatus).completed = true ↔
      (updateStatus t₁ todo newStatus).status = TodoStatus.completed) ∧
    (todo.status ≠ TodoStatus.completed → newStatus = TodoStatus.completed →
      (updateStatus t₁ todo newStatus).completedAt = some (toISOStringAt t₁)) ∧
    (todo.status = TodoStatus.completed → newStatus ≠ TodoStatus.completed →
      (updateStatus t₁ todo newStatus).completedAt = none) ∧
    ((todo.status = TodoStatus.completed ↔ newStatus = TodoStatus.completed) →
      (updateStatus t₁ todo newStatus).completedAt = todo.completedAt) ∧
    (todo.status ≠ TodoStatus.completed →
      (toggleComplete t₁ todo).completed = true ∧
      (toggleComplete t₁ todo).status = TodoStatus.completed ∧
      (toggleComplete t₁ todo).completedAt = some (toISOStringAt t₁) ∧
      toISOStringAt t₁ ≠ "") ∧
    (todo.status ≠ TodoStatus.completed →
      (toggleComplete t₂ (toggleComplete t₁ todo)).completedAt = none ∧
      (toggleComplete t₂ (toggleComplete t₁ todo)).status = TodoStatus.pending ∧
      (toggleComplete t₂ (toggleComplete t₁ todo)).completed = false) := by
  by_cases hs : todo.status = TodoStatus.completed
  · have hc : todo.completed = true := hinv.2 hs
    refine ⟨?_, ?_, ?_, ?_, ?_, ?_, ?_⟩
    · simp [toggleComplete, hc]
    · cases newStatus <;> simp [updateStatus]
    · intro h; exact absurd hs h
    · intro _ hns
      simp [updateStatus, hc, hs, hns]
    · intro hiff
      simp [updateStatus, hc, hs, hiff.1 hs]
    · intro h; exact absurd hs h
    · intro h; exact absurd hs h
  · have hc : todo.completed = false := by
      cases hcb : todo.completed
      · rfl
      · exact absurd (hinv.1 hcb) hs
    refine ⟨?_, ?_, ?_, ?_, ?_, ?_, ?_⟩
    · simp [toggleComplete, hc]
    · cases newStatus <;> simp [updateStatus]
    · intro _ hns
      simp [updateStatus, hc, hns]
    · intro h; exact absurd h hs
    · intro hiff
      have hns : newStatus ≠ TodoStatus.completed := fun h => hs (hiff.2 h)
      simp [updateStatus, hc, hns]
    · intro _
      refine ⟨?_, ?_, ?_, toISOStringAt_ne_empty t₁⟩ <;>
        simp [toggleComplete, hc]
    · intro _
      refine ⟨?_, ?_, ?_⟩ <;> simp [toggleComplete, hc]

/-- Witness for C5 at concrete inputs: `sampleTodo` is Pending with
`completed = false`. -/
theorem todo_status_consistency_witness :
    (sampleTodo.completed = true ↔ sampleTodo.status = TodoStatus.completed) ∧
    ((toggleComplete 29513070 sampleTodo).completed = true ∧
      (toggleComplete 29513070 sampleTodo).status = TodoStatus.completed ∧
      (toggleComplete 29513070 sampleTodo).completedAt =
        some (toISOStringAt 29513070) ∧
      toISOStringAt 29513070 ≠ "") ∧
    ((toggleComplete 29513100 (toggleComplete 29513070 sampleTodo)).completedAt
        = none ∧
      (toggleComplete 29513100 (toggleComplete 29513070 sampleTodo)).status
        = TodoStatus.pending ∧
      (toggleComplete 29513100 (toggleComplete 29513070 sampleTodo)).completed
        = false) :=
  ⟨by decide,
    (todo_status_consistency 29513070 29513100 sampleTodo
      TodoStatus.inProgress (by decide)).2.2.2.2.2.1 (by decide),
    (todo_status_consistency 29513070 29513100 sampleTodo
      TodoStatus.inProgress (by decide)).2.2.2.2.2.2 (by decide)⟩

/-- C6: `parseLocalDate (getLocalDate d)` reconstructs a date whose local
year/month/day components equal `d`'s; and at local time 23:30 of day `D`
in a UTC−5 timezone (instant `1440 * D + 1710` minutes UTC),
`getLocalDate()` formats day `D`, while the naive
`toISOString().split('T')[0]` path formats day `D + 1`. -/
theorem local_date_correctness (d : JSDate) (_hd : ValidDate d) (D : Int) :
    parseLocalDate (getLocalDate d) = some d ∧
    getLocalDateAt (-300) (1440 * D + 1710) = getLocalDate (civilFromDays D) ∧
    expenseDefaultTraceDate (1440 * D + 1710) =
      getLocalDate (civilFromDays (D + 1)) := by
  refine ⟨parseLocalDate_getLocalDate d, ?_, ?_⟩
  · have hday : localDayNum (-300) (1440 * D + 1710) = D := by
      unfold localDayNum
      rw [Int.fdiv_eq_ediv _ (by norm_num)]
      omega
    unfold getLocalDateAt
    rw [hday]
  · have hday : utcDayNum (1440 * D + 1710) = D + 1 := by
      unfold utcDayNum
      rw [Int.fdiv_eq_ediv _ (by norm_num)]
      omega
    rw [expenseDefaultTraceDate_eq, hday]
    rfl

/-- Witness for C6 at concrete inputs (`D = 20494` is 2026-02-10; the
instant is 2026-02-11T04:30Z, i.e. 23:30 local at UTC−5). -/
theorem local_date_correctness_witness :
    ValidDate ⟨2026, 1, 10⟩ ∧
    parseLocalDate (getLocalDate ⟨2026, 1, 10⟩) = some ⟨2026, 1, 10⟩ ∧
    getLocalDateAt (-300) (1440 * 20494 + 1710) =
      getLocalDate (civilFromDays 20494) ∧
    expenseDefaultTraceDate (1440 * 20494 + 1710) =
      getLocalDate (civilFromDays (20494 + 1)) :=
  ⟨by decide, local_date_correctness ⟨2026, 1, 10⟩ (by decide) 20494⟩

/-- Expense record with an absent (empty) trace date. -/
def expenseNoTrace : Expense :=
  ⟨"x2", "Coffee", 5, "Food", "2026-02-10", "2026-02-10", ""⟩

/-- Daily Entry record with an absent (empty) trace date. -/
def dailyNoTrace : DailyEntry :=
  ⟨"d2", "2026-02-10", "worked", "shipped", "", false, 0⟩

/-- C7: evaluation at the failing input.  At instant 29513070
(2026-02-11T04:30Z — local wall clock 2026-02-10 23:30 in UTC−5),
`saveExpense` with an absent trace date persists the UTC calendar date
2026-02-11 to both the cache and the insert payload, although the current
local calendar date is 2026-02-10; `saveDailyEntry` at the same instant
correctly assigns the local date. -/
theorem saveExpense_assigns_utc_date :
    (Storage.saveExpense rlOpen true 29513070 false expenseNoTrace []).cache =
      [{ expenseNoTrace with traceDate := "2026-02-11" }] ∧
    (Storage.saveExpense rlOpen true 29513070 false expenseNoTrace []).requests =
      [⟨"x2", "Coffee", 5, "Food", "2026-02-10", "2026-02-10", "2026-02-11"⟩] ∧
    getLocalDateAt (-300) 29513070 = "2026-02-10" ∧
    (Storage.saveDailyEntry rlOpen true (-300) 29513070 false false
        dailyNoTrace []).cache =
      [{ dailyNoTrace with traceDate := "2026-02-10" }] := by
  refine ⟨by decide, by decide, by decide, by decide⟩

/-- C8 counterexample: the claim says the legacy-shape second attempt exists
for exactly ONE entity/operation pair, but both `saveDailyEntry` AND
`updateDailyEntry` (two distinct pairs) issue a second remote attempt after
the first fails. -/
theorem retry_two_pairs_counterexample :
    (Storage.saveDailyEntry rlOpen true (-300) 29513070 true true sampleDaily
      []).requests.length = 2 ∧
    (Storage.updateDailyEntry rlOpen true true true sampleDaily
      []).requests.length = 2 := by
  refine ⟨by decide, by decide⟩

/-- C8 (amended): the schema-compatibility fallback exists for exactly one
ENTITY — Daily Entry — on its save, update and fetch operations, each of
which issues a second legacy-shape attempt when the first fails; every
other modelled entity/operation issues at most one remote attempt under all
outcomes. -/
theorem single_attempt_except_daily_entry
    (rl : RateLimiter) (cfg : Bool) (off t : Int) (f f2 : Bool)
    (hguard : (checkRateLimit rl && cfg) = true)
    (e : DailyEntry) (dc : List DailyEntry)
    (i : Idea) (ic : List Idea)
    (w : WeeklyOutcome) (wc : List WeeklyOutcome)
    (td : Todo) (tc : List Todo)
    (g : DecisionGate) (gc : List DecisionGate)
    (c : Contact) (cc : List Contact)
    (v : Discovery) (vc : List Discovery)
    (x : Expense) (xc : List Expense)
    (rows : List DailyDbRow) (irows : List IdeaDbRow) (idArg : String) :
    (Storage.saveDailyEntry rl cfg off t true f2 e dc).requests.length = 2 ∧
    (Storage.updateDailyEntry rl cfg true f2 e dc).requests.length = 2 ∧
    (Storage.fetchDailyEntries cfg true f2 rows dc).attempts = 2 ∧
    (Storage.deleteDailyEntry rl cfg f idArg dc).requests.length ≤ 1 ∧
    (Storage.fetchIdeas cfg f irows ic).attempts ≤ 1 ∧
    (Storage.saveIdea rl cfg off t f i ic).requests.length ≤ 1 ∧
    (Storage.updateIdea rl cfg f i ic).requests.length ≤ 1 ∧
    (Storage.deleteIdea rl cfg f idArg ic).requests.length ≤ 1 ∧
    (Storage.saveWeeklyOutcome rl cfg off t f w wc).requests.length ≤ 1 ∧
    (Storage.updateWeeklyOutcome rl cfg f w wc).requests.length ≤ 1 ∧
    (Storage.deleteWeeklyOutcome rl cfg f idArg wc).requests.length ≤ 1 ∧
    (Storage.saveTodo rl cfg off t f td tc).requests.length ≤ 1 ∧
    (Storage.updateTodo rl cfg f td tc).requests.length ≤ 1 ∧
    (Storage.deleteTodo rl cfg f idArg tc).requests.length ≤ 1 ∧
    (Storage.saveDecision rl cfg off t f g gc).requests.length ≤ 1 ∧
    (Storage.updateDecision rl cfg f g gc).requests.length ≤ 1 ∧
    (Storage.deleteDecision rl cfg f idArg gc).requests.length ≤ 1 ∧
    (Storage.saveContact rl cfg off t f c cc).requests.length ≤ 1 ∧
    (Storage.updateContact rl cfg f c cc).requests.length ≤ 1 ∧
    (Storage.deleteContact rl cfg f idArg cc).requests.length ≤ 1 ∧
    (Storage.saveDiscovery rl cfg off t f v vc).requests.length ≤ 1 ∧
    (Storage.updateDiscovery rl cfg f v vc).requests.length ≤ 1 ∧
    (Storage.deleteDiscovery rl cfg f idArg vc).requests.length ≤ 1 ∧
    (Storage.saveExpense rl cfg t f x xc).requests.length ≤ 1 ∧
    (Storage.deleteExpense rl cfg f idArg xc).requests.length ≤ 1 := by
  have hcfg : cfg = true := by
    cases cfg
    · simp at hguard
    · rfl
  subst hcfg
  refine ⟨?_, ?_, ?_, ?_, ?_, ?_, ?_, ?_, ?_, ?_, ?_, ?_, ?_, ?_, ?_, ?_,
    ?_, ?_, ?_, ?_, ?_, ?_, ?_, ?_, ?_⟩ <;>
  · cases f <;> cases f2 <;>
      simp [Storage.saveDailyEntry, Storage.updateDailyEntry,
        Storage.deleteDailyEntry, Storage.fetchDailyEntries,
        Storage.fetchIdeas, Storage.saveIdea, Storage.updateIdea,
        Storage.deleteIdea, Storage.saveWeeklyOutcome,
        Storage.updateWeeklyOutcome, Storage.deleteWeeklyOutcome,
        Storage.saveTodo, Storage.updateTodo, Storage.deleteTodo,
        Storage.saveDecision, Storage.updateDecision, Storage.deleteDecision,
        Storage.saveContact, Storage.updateContact, Storage.deleteContact,
        Storage.saveDiscovery, Storage.updateDiscovery,
        Storage.deleteDiscovery, Storage.saveExpense, Storage.deleteExpense,
        hguard]

/-- Witness for C8's amended theorem at concrete inputs. -/
theorem single_attempt_except_daily_entry_witness :
    (checkRateLimit rlOpen && true) = true ∧
    (Storage.saveDailyEntry rlOpen true (-300) 29513070 true true sampleDaily
      []).requests.length = 2 ∧
    (Storage.saveIdea rlOpen true (-300) 29513070 true sampleIdea
      []).requests.length ≤ 1 :=
  ⟨by decide,
    (single_attempt_except_daily_entry rlOpen true (-300) 29513070 true true
      (by decide) sampleDaily [] sampleIdea [] sampleWeekly [] sampleTodo []
      sampleDecision [] sampleContact [] sampleDiscovery [] sampleExpense []
      [] [] "x1").1,
    (single_attempt_except_daily_entry rlOpen true (-300) 29513070 true true
      (by decide) sampleDaily [] sampleIdea [] sampleWeekly [] sampleTodo []
      sampleDecision [] sampleContact [] sampleDiscovery [] sampleExpense []
      [] [] "x1").2.2.2.2.2.1⟩

/-- Contact whose `xAccount` and `avatarUrl` fields would be altered by the
sanitizers. -/
def contactUnsafe : Contact :=
  ⟨"c2", "Eve", "E", "e@x.co", "https://l.in/e", "<b>eve</b>", "n",
    "2026-02-10", "2026-02-10", "javascript:alert(1)"⟩

/-- C10 counterexample: the claim says the remote update payload has the
sanitizers applied to all free-text/URL/email fields, but `updateContact`
sends `x_account` (a free-text field, sanitized on save) and `avatar_url`
(a URL field, sanitized on save) through verbatim, although the sanitizers
would alter both values. -/
theorem updateContact_unsanitized_fields_counterexample :
    (Storage.updateContact rlOpen true false contactUnsafe
      [contactUnsafe]).requests =
      [⟨"c2", "Eve", "E", "e@x.co", "https://l.in/e", "<b>eve</b>", "n",
        "2026-02-10", "2026-02-10", "javascript:alert(1)"⟩] ∧
    sanitizeText "<b>eve</b>" ≠ "<b>eve</b>" ∧
    sanitizeUrl "javascript:alert(1)" ≠ "javascript:alert(1)" ∧
    (Storage.saveContact rlOpen true (-300) 29513070 false contactUnsafe
      []).requests =
      [⟨"c2", "Eve", "E", "e@x.co", "https://l.in/e", "beve/b", "n",
        "2026-02-10", "2026-02-10", ""⟩] := by
  refine ⟨by decide, by decide, by decide, by decide⟩

/-- C10 (amended): for every entity type with an update operation (all
except Expense, which has none), `updateX` writes the caller's record to
the cache verbatim, while the remote update payload applies the sanitizers
to its free-text/URL/email fields EXCEPT Contact's `x_account` and
`avatar_url`, which are sent verbatim; consequently, whenever sanitization
alters the Idea's thought, every cached record carrying the updated
identifier differs from the row sent to the backend. -/
theorem update_cache_verbatim_payload_sanitized
    (rl : RateLimiter) (cfg : Bool)
    (hguard : (checkRateLimit rl && cfg) = true)
    (e : DailyEntry) (dc : List DailyEntry)
    (i : Idea) (ic : List Idea)
    (w : WeeklyOutcome) (wc : List WeeklyOutcome)
    (td : Todo) (tc : List Todo)
    (g : DecisionGate) (gc : List DecisionGate)
    (c : Contact) (cc : List Contact)
    (v : Discovery) (vc : List Discovery) :
    (Storage.updateDailyEntry rl cfg false false e dc).cache =
      dc.map (fun x => if x.id = e.id then e else x) ∧
    (Storage.updateDailyEntry rl cfg false false e dc).requests =
      [⟨e.id, e.date, sanitizeText e.workedOn, sanitizeText e.shipped,
        e.traceDate, some e.pinned, some e.position⟩] ∧
    (Storage.updateIdea rl cfg false i ic).cache =
      ic.map (fun j => if j.id = i.id then i else j) ∧
    (Storage.updateIdea rl cfg false i ic).requests =
      [⟨i.id, i.date, sanitizeText i.thought, i.category, i.urgency, i.status,
        i.platform, i.executed, i.pinned, i.traceDate⟩] ∧
    (Storage.updateWeeklyOutcome rl cfg false w wc).cache =
      wc.map (fun x => if x.id = w.id then w else x) ∧
    (Storage.updateWeeklyOutcome rl cfg false w wc).requests =
      [⟨w.id, w.weekStarting, sanitizeText w.build, sanitizeText w.ship,
        sanitizeText w.learn, w.status, w.reviewGenerated, w.traceDate⟩] ∧
    (Storage.updateTodo rl cfg false td tc).cache =
      tc.map (fun x => if x.id = td.id then td else x) ∧
    (Storage.updateTodo rl cfg false td tc).requests =
      [⟨td.id, sanitizeText td.title, sanitizeText td.details, td.deadline,
        td.priority, td.status, td.completed, td.traceDate, td.timeSlot,
        td.targetTime, td.pinned, td.completedAt⟩] ∧
    (Storage.updateDecision rl cfg false g gc).cache =
      gc.map (fun x => if x.id = g.id then g else x) ∧
    (Storage.updateDecision rl cfg false g gc).requests =
      [⟨g.id, sanitizeText g.decision, sanitizeText g.outcome, g.status,
        g.traceDate⟩] ∧
    (Storage.updateContact rl cfg false c cc).cache =
      cc.map (fun x => if x.id = c.id then c else x) ∧
    (Storage.updateContact rl cfg false c cc).requests =
      [⟨c.id, sanitizeText c.name, sanitizeText c.company,
        sanitizeEmail c.email, sanitizeUrl c.linkedin, c.xAccount,
        sanitizeText c.notes, c.dateAdded, c.traceDate, c.avatarUrl⟩] ∧
    (Storage.updateDiscovery rl cfg false v vc).cache =
      vc.map (fun x => if x.id = v.id then v else x) ∧
    (Storage.updateDiscovery rl cfg false v vc).requests =
      [⟨v.id, sanitizeText v.title, sanitizeUrl v.url,
        sanitizeText v.description, sanitizeText v.category, v.impact,
        v.dateAdded, v.traceDate, v.pinned⟩] ∧
    (sanitizeText i.thought ≠ i.thought →
      ∀ row ∈ (Storage.updateIdea rl cfg false i ic).requests,
        ∀ j ∈ (Storage.updateIdea rl cfg false i ic).cache,
          j.id = i.id → j.thought ≠ row.thought) := by
  have hidea : (Storage.updateIdea rl cfg false i ic).cache =
      ic.map (fun j => if j.id = i.id then i else j) := by
    simp [Storage.updateIdea, Storage.getIdeas, hguard]
  have hireq : (Storage.updateIdea rl cfg false i ic).requests =
      [⟨i.id, i.date, sanitizeText i.thought, i.category, i.urgency, i.status,
        i.platform, i.executed, i.pinned, i.traceDate⟩] := by
    simp [Storage.updateIdea, Storage.getIdeas, hguard]
  refine ⟨?_, ?_, hidea, hireq, ?_, ?_, ?_, ?_, ?_, ?_, ?_, ?_, ?_, ?_, ?_⟩
  · simp [Storage.updateDailyEntry, Storage.getDailyEntries, hguard]
  · simp [Storage.updateDailyEntry, Storage.getDailyEntries, hguard]
  · simp [Storage.updateWeeklyOutcome, Storage.getWeeklyOutcomes, hguard]
  · simp [Storage.updateWeeklyOutcome, Storage.getWeeklyOutcomes, hguard]
  · simp [Storage.updateTodo, Storage.getTodos, hguard]
  · simp [Storage.updateTodo, Storage.getTodos, hguard]
  · simp [Storage.updateDecision, Storage.getDecisions, hguard]
  · simp [Storage.updateDecision, Storage.getDecisions, hguard]
  · simp [Storage.updateContact, Storage.getContacts, hguard]
  · simp [Storage.updateContact, Storage.getContacts, hguard]
  · simp [Storage.updateDiscovery, Storage.getDiscoveries, hguard]
  · simp [Storage.updateDiscovery, Storage.getDiscoveries, hguard]
  · intro halter row hrow j hj hid
    rw [hireq] at hrow
    simp only [List.mem_singleton] at hrow
    rw [hidea] at hj
    rcases List.mem_map.1 hj with ⟨j0, _, hj0⟩
    have hji : j = i := by
      by_cases hcase : j0.id = i.id
      · rw [if_pos hcase] at hj0; exact hj0.symm
      · rw [if_neg hcase] at hj0
        rw [← hj0] at hid
        exact absurd hid hcase
    rw [hji, hrow]
    intro hcontra
    exact halter (show sanitizeText i.thought = i.thought from hcontra.symm)

/-- Idea whose thought is altered by sanitization (used in the C10
witness). -/
def ideaUnsafe : Idea :=
  ⟨"i3", "2026-02-10", "<b>x</b>", "Content", "Low", "Inbox", "", false,
    false, "2026-02-10"⟩

/-- Witness for C10's amended theorem at concrete inputs. -/
theorem update_cache_verbatim_payload_sanitized_witness :
    (checkRateLimit rlOpen && true) = true ∧
    (Storage.updateIdea rlOpen true false ideaUnsafe [ideaUnsafe]).cache =
      [ideaUnsafe].map (fun j => if j.id = ideaUnsafe.id then ideaUnsafe else j) ∧
    (Storage.updateContact rlOpen true false contactUnsafe
      [contactUnsafe]).requests =
      [⟨contactUnsafe.id, sanitizeText contactUnsafe.name,
        sanitizeText contactUnsafe.company, sanitizeEmail contactUnsafe.email,
        sanitizeUrl contactUnsafe.linkedin, contactUnsafe.xAccount,
        sanitizeText contactUnsafe.notes, contactUnsafe.dateAdded,
        contactUnsafe.traceDate, contactUnsafe.avatarUrl⟩] :=
  ⟨by decide,
    (update_cache_verbatim_payload_sanitized rlOpen true (by decide)
      sampleDaily [] ideaUnsafe [ideaUnsafe] sampleWeekly [] sampleTodo []
      sampleDecision [] contactUnsafe [contactUnsafe] sampleDiscovery []).2.2.1,
    (update_cache_verbatim_payload_sanitized rlOpen true (by decide)
      sampleDaily [] ideaUnsafe [ideaUnsafe] sampleWeekly [] sampleTodo []
      sampleDecision [] contactUnsafe [contactUnsafe]
      sampleDiscovery []).2.2.2.2.2.2.2.2.2.2.2.1⟩

end AJOS
